import Mathlib

/-!
Shallow embedding of `examples/showVisitSkyMap.py`: the coordinate projector
`bboxToRaDec`, the `percent` helper, the footprint-aggregation loop of `main`,
the view-limit computation, the optional tiling (patch) overlay, and the
set-based id deduplication of `splitId`.

Python floats are modelled as rationals; a raised exception is modelled as
`none`; the external world (butler/repository, camera geometry, WCS
construction, plotting backend) is an explicit environment whose calls may
fail.  The plotting calls are reified as data so the draw/label behaviour can
be stated.
-/

namespace SkyMapViz

/-- A point in detector pixel coordinates (`afwGeom.Point2D`). -/
structure Point2D where
  px : ℚ
  py : ℚ
deriving DecidableEq

/-- A pixel bounding box, represented by its corner list, the result of
`bbox.getCorners()`. -/
structure BBox where
  corners : List Point2D
deriving DecidableEq

/-- A WCS maps a pixel point to ICRS (ra, dec) in degrees, the composite
`wcs.pixelToSky(p).toIcrs()` with `getRa().asDegrees()` / `getDec().asDegrees()`;
`none` models a raised exception at that point. -/
abbrev Wcs : Type := Point2D → Option (ℚ × ℚ)

/-- The corner loop of `bboxToRaDec`: project each corner through the wcs,
collecting `[ra, dec]` pairs; an exception at any corner propagates. -/
def projectCorners (wcs : Wcs) : List Point2D → Option (List (ℚ × ℚ))
  | [] => some []
  | c :: cs => (wcs c).bind fun rd => (projectCorners wcs cs).map fun rest => rd :: rest

/-- Model of `def bboxToRaDec(bbox, wcs)`: project every corner, then
`ra, dec = zip(*corners)`.  Unpacking `zip(*corners)` raises `ValueError` when
the corner list is empty, modelled as `none`. -/
def bboxToRaDec (bbox : BBox) (wcs : Wcs) : Option (List ℚ × List ℚ) :=
  (projectCorners wcs bbox.corners).bind fun cs =>
    match cs with
    | [] => none
    | _ :: _ => some (cs.map Prod.fst, cs.map Prod.snd)

/-- Python `min` over a list; raises (`none`) on an empty list. -/
def pymin : List ℚ → Option ℚ
  | [] => none
  | x :: xs => some (xs.foldl min x)

/-- Python `max` over a list; raises (`none`) on an empty list. -/
def pymax : List ℚ → Option ℚ
  | [] => none
  | x :: xs => some (xs.foldl max x)

/-- Model of `def percent(values, p=0.5)`:
`m = min(values); interval = max(values) - m; return m + p*interval`.
The Python default `p=0.5` is passed explicitly at the call sites below. -/
def percent (values : List ℚ) (p : ℚ) : Option ℚ :=
  (pymin values).bind fun m =>
  (pymax values).map fun mx => m + p * (mx - m)

/-- The sensor type tag; the loop keeps only sensors whose
`ccd.getType() is cameraGeom.SCIENCE`. -/
inductive SensorType
  | science
  | nonScience
deriving DecidableEq, BEq

/-- One sensor of the camera: its integer serial id (`int(ccd.getSerial())`),
its type, and its pixel bounding box (`ccd.getBBox()`). -/
structure Sensor where
  serial : ℤ
  stype : SensorType
  bbox : BBox
deriving DecidableEq

/-- The camera geometry: an iterable of sensors (`for ccd in camera`). -/
structure Camera where
  sensors : List Sensor
deriving DecidableEq

/-- A patch of a tract: its inner pixel bounding box and its index. -/
structure Patch where
  innerBBox : BBox
  index : ℤ × ℤ
deriving DecidableEq

/-- A tract of the sky map: its WCS and its iterable of patches. -/
structure Tract where
  twcs : Wcs
  patches : List Patch

/-- The tiling grid (`deepCoadd_skyMap`): an iterable of tracts. -/
structure SkyMap where
  tracts : List Tract

/-- A `pyplot.fill` call as issued by the script, arguments reified. -/
structure FillCall where
  ra : List ℚ
  dec : List ℚ
  filled : Bool
  alpha : Option ℚ
  color : Option String
  edgecolor : Option String
  lw : Option ℚ
  linestyle : Option String
deriving DecidableEq

/-- A `pyplot.text` call as issued by the script, arguments reified. -/
structure TextCall where
  x : ℚ
  y : ℚ
  label : ℤ × ℤ
  fontsize : ℕ
  ha : String
  va : String
deriving DecidableEq

/-- The external world of `main`: the camera exposed by the butler's mapper,
the metadata fetch `butler.get("calexp_md", {'visit': v, ccdKey: id})`, WCS
construction `afwImage.makeWcs(md)`, whether a given plotting call raises, and
the skymap fetch `butler.get('deepCoadd_skyMap', {'tract': t})`.  `α` is the
opaque type of the `calexp_md` metadata. -/
structure Env (α : Type) where
  camera : Camera
  fetchMd : String → ℤ → ℤ → Option α
  makeWcs : α → Option Wcs
  fillOk : FillCall → Bool
  textOk : TextCall → Bool
  getSkyMap : ℤ → Option SkyMap

/-- The color palette indexing `('r', 'b', 'c', 'g', 'm')[i_v % 5]`; the index
is always in range, so the default is never used. -/
def colorOf (i_v : ℕ) : String :=
  ["r", "b", "c", "g", "m"].getD (i_v % 5) ""

/-- The mutable state of the aggregation loop: the `ras`/`decs` accumulators,
the fill calls issued so far, the fetch attempts made (one entry per
`butler.get("calexp_md", ...)` call, successful or not), and the lines printed
(one per visit iteration). -/
structure AggState where
  ras : List ℚ
  decs : List ℚ
  fills : List FillCall
  fetchLog : List (ℤ × ℤ)
  printed : List (ℕ × ℤ)
deriving DecidableEq

/-- The initial aggregation state (`ras, decs = [], []`, nothing drawn). -/
def AggState.empty : AggState := ⟨[], [], [], [], []⟩

/-- Field-wise concatenation of aggregation states. -/
def AggState.append (s t : AggState) : AggState :=
  ⟨s.ras ++ t.ras, s.decs ++ t.decs, s.fills ++ t.fills,
   s.fetchLog ++ t.fetchLog, s.printed ++ t.printed⟩

/-- The filter `(ccds is None or ccdId in ccds) and ccd.getType() is
cameraGeom.SCIENCE`, in the source's evaluation order. -/
def ccdSelected (ccds : Option (List ℤ)) (ccdId : ℤ) (stype : SensorType) : Bool :=
  (match ccds with
   | none => true
   | some l => l.contains ccdId) && (stype == SensorType.science)

/-- One iteration of `for ccd in camera`: apply the filter, attempt the
metadata fetch, build the WCS, project the bounding box, extend the
accumulators, then issue the fill; the bare `try/except: pass` swallows a
failure at any of the four fallible steps, keeping whatever had already been
done before the failure. -/
def processCcd {α : Type} (env : Env α) (ccdKey : String) (ccds : Option (List ℤ))
    (i_v : ℕ) (visit : ℤ) (ccd : Sensor) (st : AggState) : AggState :=
  if ccdSelected ccds ccd.serial ccd.stype then
    let st1 := { st with fetchLog := st.fetchLog ++ [(visit, ccd.serial)] }
    match env.fetchMd ccdKey visit ccd.serial with
    | none => st1
    | some md =>
      match env.makeWcs md with
      | none => st1
      | some wcs =>
        match bboxToRaDec ccd.bbox wcs with
        | none => st1
        | some rd =>
          let st2 := { st1 with ras := st1.ras ++ rd.1, decs := st1.decs ++ rd.2 }
          let call : FillCall :=
            { ra := rd.1, dec := rd.2, filled := true, alpha := some (1/5),
              color := some (colorOf i_v), edgecolor := some (colorOf i_v),
              lw := none, linestyle := none }
          if env.fillOk call then { st2 with fills := st2.fills ++ [call] } else st2
  else st

/-- One iteration of `for i_v, visit in enumerate(visits)`: print the visit
line, then loop over the camera's sensors. -/
def processVisit {α : Type} (env : Env α) (ccdKey : String) (ccds : Option (List ℤ))
    (i_v : ℕ) (visit : ℤ) (st : AggState) : AggState :=
  env.camera.sensors.foldl (fun s ccd => processCcd env ccdKey ccds i_v visit ccd s)
    { st with printed := st.printed ++ [(i_v, visit)] }

/-- The `enumerate(visits)` loop, carrying the running index `i_v`. -/
def runVisits {α : Type} (env : Env α) (ccdKey : String) (ccds : Option (List ℤ)) :
    ℕ → List ℤ → AggState → AggState
  | _, [], st => st
  | i_v, visit :: rest, st =>
    runVisits env ccdKey ccds (i_v + 1) rest (processVisit env ccdKey ccds i_v visit st)

/-- The whole "draw the CCDs" section of `main`, starting from the empty
accumulators. -/
def runAggregation {α : Type} (env : Env α) (ccdKey : String) (ccds : Option (List ℤ))
    (visits : List ℤ) : AggState :=
  runVisits env ccdKey ccds 0 visits AggState.empty

/-- The fixed margin `buff = 0.1`. -/
def buff : ℚ := 1/10

/-- Model of `xlim = max(ras)+buff, min(ras)-buff` and
`ylim = min(decs)-buff, max(decs)+buff`, with `min`/`max` of an empty list
raising (`none`), in the source's evaluation order. -/
def viewLimits (ras decs : List ℚ) : Option ((ℚ × ℚ) × (ℚ × ℚ)) :=
  (pymax ras).bind fun mxr =>
  (pymin ras).bind fun mnr =>
  (pymin decs).bind fun mnd =>
  (pymax decs).map fun mxd =>
  ((mxr + buff, mnr - buff), (mnd - buff, mxd + buff))

/-- The draw calls issued by the patch overlay. -/
structure OverlayOut where
  fills : List FillCall
  texts : List TextCall
deriving DecidableEq

/-- One iteration of `for patch in tract`: project the inner bounding box with
the tract's WCS, draw the dashed outline, and when the patch centroid
(`percent(ra)`, `percent(dec)`, both at the default `p = 0.5`) lies strictly
inside the view limits, draw the index label at
`(percent(ra), percent(dec, 0.9))` with fontsize 6, center/top anchoring.
This loop is not inside a `try`, so any raised exception aborts the script
(`none`). -/
def overlayPatch {α : Type} (env : Env α) (xlim ylim : ℚ × ℚ) (wcs : Wcs)
    (patch : Patch) (acc : OverlayOut) : Option OverlayOut :=
  (bboxToRaDec patch.innerBBox wcs).bind fun rd =>
  let call : FillCall :=
    { ra := rd.1, dec := rd.2, filled := false, alpha := none, color := none,
      edgecolor := some "k", lw := some 1, linestyle := some "dashed" }
  if env.fillOk call then
    let acc1 : OverlayOut := ⟨acc.fills ++ [call], acc.texts⟩
    (percent rd.1 (1/2)).bind fun cra =>
    if xlim.2 < cra ∧ cra < xlim.1 then
      (percent rd.2 (1/2)).bind fun cdec =>
      if ylim.1 < cdec ∧ cdec < ylim.2 then
        (percent rd.2 (9/10)).bind fun y9 =>
        let t : TextCall := { x := cra, y := y9, label := patch.index,
                              fontsize := 6, ha := "center", va := "top" }
        if env.textOk t then some ⟨acc1.fills, acc1.texts ++ [t]⟩ else none
      else some acc1
    else some acc1
  else none

/-- The `for patch in tract` loop over one tract's patches. -/
def overlayTract {α : Type} (env : Env α) (xlim ylim : ℚ × ℚ) (t : Tract)
    (acc : OverlayOut) : Option OverlayOut :=
  t.patches.foldlM (fun a p => overlayPatch env xlim ylim t.twcs p a) acc

/-- The `for tract in skymap` loop of the `if showPatch:` section. -/
def runOverlay {α : Type} (env : Env α) (xlim ylim : ℚ × ℚ) (sm : SkyMap) :
    Option OverlayOut :=
  sm.tracts.foldlM (fun a t => overlayTract env xlim ylim t a) ⟨[], []⟩

/-- The final rendering step: `fig.savefig(saveFile)` or `fig.show()`. -/
inductive RenderAction
  | saveTo (f : String)
  | showOnScreen
deriving DecidableEq

/-- Everything `main` has done when it reaches the end without an uncaught
exception: the aggregation state, the axis limits applied, the overlay draw
calls (empty when `showPatch` is false), and the render action. -/
structure MainResult where
  agg : AggState
  xlim : ℚ × ℚ
  ylim : ℚ × ℚ
  overlayOut : OverlayOut
  render : RenderAction

set_option linter.unusedVariables false in
/-- Model of `def main(rootDir, tract, visits, ccds=None, ccdKey='ccd',
showPatch=False, saveFile=None)`.  The butler, camera and plotting backend are
the environment; `none` models an uncaught exception terminating the script
before any rendering happens.  The `tract` argument is received but never
read: the overlay always fetches `{'tract': 0}` and its `for tract in skymap`
loop variable shadows the parameter. -/
def main {α : Type} (env : Env α) (tract : ℤ) (visits : List ℤ)
    (ccds : Option (List ℤ)) (ccdKey : String) (showPatch : Bool)
    (saveFile : Option String) : Option MainResult :=
  let st := runAggregation env ccdKey ccds visits
  (viewLimits st.ras st.decs).bind fun lims =>
  (if showPatch then
    (env.getSkyMap 0).bind fun sm => runOverlay env lims.1 lims.2 sm
   else some ⟨[], []⟩).map fun ov =>
  { agg := st, xlim := lims.1, ylim := lims.2, overlayOut := ov,
    render := match saveFile with
              | some f => RenderAction.saveTo f
              | none => RenderAction.showOnScreen }

/-- Models the last step of `splitId`'s `SplitIdValueAction.__call__`:
`idList` is the list of integer ids parsed (by the external `IdValueAction`)
from the caret-separated command-line string, in input order and with
duplicates kept; the action then stores
`list({int(dataId[argName]) for dataId in ...idList})`, i.e. some enumeration,
in an unspecified order, of the set of those ids.  A list `l` is a possible
outcome iff it is duplicate-free and has exactly the same elements. -/
def splitIdOutcome (idList l : List ℤ) : Prop :=
  l.Nodup ∧ l.toFinset = idList.toFinset

instance (idList l : List ℤ) : Decidable (splitIdOutcome idList l) :=
  inferInstanceAs (Decidable (l.Nodup ∧ l.toFinset = idList.toFinset))

/-- The statistical median, for comparison with `percent`: the middle element
of the sorted list, or the mean of the two middle elements when the length is
even.  Stated from the spec's phrase "not the statistical median", not from
the source (the source has no median). -/
def statMedian (l : List ℚ) : Option ℚ :=
  let s := l.insertionSort (fun a b => a ≤ b)
  if l.length % 2 = 1 then s.get? (l.length / 2)
  else (s.get? (l.length / 2 - 1)).bind fun a =>
       (s.get? (l.length / 2)).map fun b => (a + b) / 2

/-- The fetch / WCS-construction / projection pipeline for one
(visit, sensor) pair, i.e. everything of the `try` body that precedes the
accumulator update. -/
def projectPair {α : Type} (env : Env α) (ccdKey : String) (visit : ℤ)
    (ccd : Sensor) : Option (List ℚ × List ℚ) :=
  (env.fetchMd ccdKey visit ccd.serial).bind fun md =>
  (env.makeWcs md).bind fun wcs =>
  bboxToRaDec ccd.bbox wcs

/-- The RA values one (visit, sensor) pair contributes to the accumulator:
its projected corners when the pipeline up to projection succeeds, nothing
otherwise. -/
def pairRas {α : Type} (env : Env α) (ccdKey : String) (visit : ℤ)
    (ccd : Sensor) : List ℚ :=
  match projectPair env ccdKey visit ccd with
  | some rd => rd.1
  | none => []

/-- The Dec values one (visit, sensor) pair contributes to the accumulator. -/
def pairDecs {α : Type} (env : Env α) (ccdKey : String) (visit : ℤ)
    (ccd : Sensor) : List ℚ :=
  match projectPair env ccdKey visit ccd with
  | some rd => rd.2
  | none => []

/-- The sensors that pass the science-and-filter test, in camera order. -/
def selectedSensors (camera : Camera) (ccds : Option (List ℤ)) : List Sensor :=
  camera.sensors.filter fun s => ccdSelected ccds s.serial s.stype

/-- Stated from the spec for comparison with the code: a fetch should be
attempted iff the sensor is a science sensor and either no sensor filter was
given or the sensor's id is in the filter set. -/
def specShouldFetch (ccds : Option (List ℤ)) (s : Sensor) : Bool :=
  (s.stype == SensorType.science) && (ccds.isNone || (ccds.getD []).contains s.serial)

/-- Stated from the spec for comparison with the code: the labels the overlay
should emit for one patch — project the inner bounding box, take the centroid
as the `p = 0.5` point of the RA values and of the Dec values, and when that
centroid lies strictly inside the view limits emit exactly one label at
`(percent(ra, 0.5), percent(dec, 0.9))`, fontsize 6, anchored center/top. -/
def specLabels (xlim ylim : ℚ × ℚ) (wcs : Wcs) (patch : Patch) : List TextCall :=
  match bboxToRaDec patch.innerBBox wcs with
  | none => []
  | some rd =>
    match percent rd.1 (1/2), percent rd.2 (1/2), percent rd.2 (9/10) with
    | some cra, some cdec, some y9 =>
      if xlim.2 < cra ∧ cra < xlim.1 ∧ ylim.1 < cdec ∧ cdec < ylim.2 then
        [{ x := cra, y := y9, label := patch.index, fontsize := 6,
           ha := "center", va := "top" }]
      else []
    | _, _, _ => []

/-! Helper lemmas about `pymin`, `pymax` and `percent`. -/

theorem foldl_min_le_init : ∀ (xs : List ℚ) (x : ℚ), xs.foldl min x ≤ x
  | [], x => le_refl x
  | a :: xs, x => le_trans (foldl_min_le_init xs (min x a)) (min_le_left x a)

theorem init_le_foldl_max : ∀ (xs : List ℚ) (x : ℚ), x ≤ xs.foldl max x
  | [], x => le_refl x
  | a :: xs, x => le_trans (le_max_left x a) (init_le_foldl_max xs (max x a))

theorem pymin_le_pymax {v : List ℚ} {m mx : ℚ}
    (hm : pymin v = some m) (hmx : pymax v = some mx) : m ≤ mx := by
  cases v with
  | nil => simp [pymin] at hm
  | cons x xs =>
    simp [pymin] at hm
    simp [pymax] at hmx
    subst hm
    subst hmx
    exact le_trans (foldl_min_le_init xs x) (init_le_foldl_max xs x)

theorem percent_cons (x : ℚ) (xs : List ℚ) (p : ℚ) :
    percent (x :: xs) p =
      some (xs.foldl min x + p * (xs.foldl max x - xs.foldl min x)) := rfl

/-- C7: for every non-empty numeric sequence `values`, `percent(values, 0.0)`
equals `min(values)`, `percent(values, 1.0)` equals `max(values)`, and
`percent(values, 0.5)` equals the arithmetic midpoint `(min + max) / 2`; on
the concrete list `[0, 0, 10]` that midpoint is `5`, which differs from the
statistical median `0`, so the midpoint is generally not the statistical
median. -/
theorem C7_percent_endpoints (v : List ℚ) (hne : v ≠ []) :
    (percent v 0 = pymin v ∧ percent v 1 = pymax v ∧
      ∃ m mx, pymin v = some m ∧ pymax v = some mx ∧
        percent v (1/2) = some ((m + mx) / 2)) ∧
    (percent [0, 0, 10] (1/2) = some 5 ∧ statMedian [0, 0, 10] = some 0) := by
  constructor
  · cases v with
    | nil => exact absurd rfl hne
    | cons x xs =>
      refine ⟨?_, ?_, xs.foldl min x, xs.foldl max x, rfl, rfl, ?_⟩
      · rw [percent_cons]
        simp [pymin]
      · rw [percent_cons]
        simp [pymax]
      · rw [percent_cons]
        ring_nf
  · exact ⟨by norm_num [percent, pymin, pymax], by decide⟩

/-- C7 witness: the theorem applied to the non-empty list `[3]` yields the
concrete part of the conclusion. -/
theorem C7_percent_endpoints_witness :
    percent [0, 0, 10] (1/2) = some 5 ∧ statMedian [0, 0, 10] = some 0 :=
  (C7_percent_endpoints [3] (by decide)).2

/-- C9: for every non-empty numeric sequence (here: whenever `pymin`, `pymax`
and `percent` return values) and every `p` with `0 ≤ p ≤ 1`, the value of
`percent` lies between the minimum and the maximum inclusive, and `percent` is
monotonically non-decreasing in `p`. -/
theorem C9_percent_bounded_monotone (v : List ℚ) (p m mx r : ℚ)
    (hm : pymin v = some m) (hmx : pymax v = some mx) (hr : percent v p = some r)
    (h0 : 0 ≤ p) (h1 : p ≤ 1) :
    (m ≤ r ∧ r ≤ mx) ∧ ∀ q rq, p ≤ q → percent v q = some rq → r ≤ rq := by
  have hmm : m ≤ mx := pymin_le_pymax hm hmx
  have hval : ∀ q rq, percent v q = some rq → rq = m + q * (mx - m) := by
    intro q rq h
    rw [percent, hm] at h
    simp at h
    rw [hmx] at h
    simp at h
    exact h.symm
  have hrval := hval p r hr
  constructor
  · constructor
    · rw [hrval]
      nlinarith
    · rw [hrval]
      nlinarith
  · intro q rq hpq hq
    rw [hrval, hval q rq hq]
    nlinarith

/-- C9 witness: on the list `[1, 5]` with `p = 1/4`, `percent` returns `2`,
which lies between the minimum `1` and the maximum `5`. -/
theorem C9_percent_bounded_monotone_witness : (1 : ℚ) ≤ 2 ∧ (2 : ℚ) ≤ 5 :=
  (C9_percent_bounded_monotone [1, 5] (1/4) 1 5 2 rfl rfl
    (by norm_num [percent, pymin, pymax]) (by norm_num) (by norm_num)).1

/-- C3: for every non-empty accumulated RA sequence and non-empty accumulated
Dec sequence, the computed view limits are `xlim = (max(RA) + 0.1, min(RA) - 0.1)`,
in that inverted order, and `ylim = (min(Dec) - 0.1, max(Dec) + 0.1)`; in
particular for `RA = [10, 20]` and `Dec = [30, 40]` the result is
`xlim = (20.1, 9.9)` and `ylim = (29.9, 40.1)`. -/
theorem C3_viewLimits_formula (ras decs : List ℚ) (h1 : ras ≠ []) (h2 : decs ≠ []) :
    (∃ mxr mnr mnd mxd,
      pymax ras = some mxr ∧ pymin ras = some mnr ∧ pymin decs = some mnd ∧
      pymax decs = some mxd ∧
      viewLimits ras decs =
        some ((mxr + 1/10, mnr - 1/10), (mnd - 1/10, mxd + 1/10))) ∧
    viewLimits [10, 20] [30, 40] = some ((201/10, 99/10), (299/10, 401/10)) := by
  constructor
  · cases ras with
    | nil => exact absurd rfl h1
    | cons x xs =>
      cases decs with
      | nil => exact absurd rfl h2
      | cons y ys => exact ⟨_, _, _, _, rfl, rfl, rfl, rfl, rfl⟩
  · norm_num [viewLimits, pymin, pymax, buff]

/-- C3 witness: the theorem applied at `RA = [10, 20]`, `Dec = [30, 40]` gives
the concrete inverted limits. -/
theorem C3_viewLimits_formula_witness :
    viewLimits [10, 20] [30, 40] = some ((201/10, 99/10), (299/10, 401/10)) :=
  (C3_viewLimits_formula [10, 20] [30, 40] (by simp) (by simp)).2

/-- C4: if no (exposure, sensor) pair is successfully processed, so the
accumulated RA and Dec sequences are empty, the view-limit computation fails
(`none`, modelling the `ValueError` of `max` on an empty sequence), and `main`
terminates with that uncaught exception before any rendering happens. -/
theorem C4_empty_accumulators_fail {α : Type} (env : Env α) (tract : ℤ)
    (visits : List ℤ) (ccds : Option (List ℤ)) (ccdKey : String) (showPatch : Bool)
    (saveFile : Option String)
    (hras : (runAggregation env ccdKey ccds visits).ras = [])
    (hdecs : (runAggregation env ccdKey ccds visits).decs = []) :
    viewLimits (runAggregation env ccdKey ccds visits).ras
      (runAggregation env ccdKey ccds visits).decs = none ∧
    main env tract visits ccds ccdKey showPatch saveFile = none := by
  have hv : viewLimits (runAggregation env ccdKey ccds visits).ras
      (runAggregation env ccdKey ccds visits).decs = none := by
    rw [hras, hdecs]
    rfl
  refine ⟨hv, ?_⟩
  simp only [main]
  rw [hv]
  rfl

/-- C4 witness: with an empty camera nothing is ever fetched, the accumulators
stay empty and `main` produces no result. -/
theorem C4_empty_accumulators_fail_witness :
    main (α := Unit)
      { camera := ⟨[]⟩, fetchMd := fun _ _ _ => none, makeWcs := fun _ => none,
        fillOk := fun _ => true, textOk := fun _ => true, getSkyMap := fun _ => none }
      0 [1] none "ccd" false none = none :=
  (C4_empty_accumulators_fail
    { camera := ⟨[]⟩, fetchMd := fun _ _ _ => none, makeWcs := fun _ => none,
      fillOk := fun _ => true, textOk := fun _ => true, getSkyMap := fun _ => none }
    0 [1] none "ccd" false none rfl rfl).2

/-- Auxiliary: when the wcs is defined on every corner, the corner-projection
loop succeeds and is pointwise the wcs of the corresponding corner. -/
theorem projectCorners_of_isSome (wcs : Wcs) :
    ∀ cs : List Point2D, (∀ c ∈ cs, (wcs c).isSome) →
      ∃ l, projectCorners wcs cs = some l ∧ l.length = cs.length ∧
        ∀ (i : ℕ) (c : Point2D), cs[i]? = some c →
          ∃ rd, l[i]? = some rd ∧ wcs c = some rd := by
  intro cs
  induction cs with
  | nil =>
    intro _
    refine ⟨[], rfl, rfl, ?_⟩
    intro i c h
    simp at h
  | cons c cs ih =>
    intro h
    obtain ⟨rd, hrd⟩ := Option.isSome_iff_exists.mp (h c (List.mem_cons_self c cs))
    obtain ⟨l, hl, hlen, hptw⟩ := ih fun c' hc' => h c' (List.mem_cons_of_mem c hc')
    refine ⟨rd :: l, ?_, by simp [hlen], ?_⟩
    · simp [projectCorners, hrd, hl]
    · intro i c' hc'
      cases i with
      | zero =>
        simp at hc'
        subst hc'
        exact ⟨rd, by simp, hrd⟩
      | succ n =>
        simp only [List.getElem?_cons_succ] at hc' ⊢
        exact hptw n c' hc'

/-- C6: for every pixel bounding box with 4 corners and every WCS defined on
those corners, `bboxToRaDec` returns exactly 4 RA values and 4 Dec values,
where the i-th RA/Dec pair is the projection of the i-th corner in the box's
corner-enumeration order. -/
theorem C6_bboxToRaDec_corners (bbox : BBox) (wcs : Wcs)
    (h4 : bbox.corners.length = 4) (hdef : ∀ c ∈ bbox.corners, (wcs c).isSome) :
    ∃ ra dec, bboxToRaDec bbox wcs = some (ra, dec) ∧ ra.length = 4 ∧
      dec.length = 4 ∧
      ∀ i, i < 4 → ∃ c r d, bbox.corners[i]? = some c ∧ ra[i]? = some r ∧
        dec[i]? = some d ∧ wcs c = some (r, d) := by
  obtain ⟨l, hl, hlen, hptw⟩ := projectCorners_of_isSome wcs bbox.corners hdef
  rw [h4] at hlen
  refine ⟨l.map Prod.fst, l.map Prod.snd, ?_, by simp [hlen], by simp [hlen], ?_⟩
  · rw [bboxToRaDec, hl]
    cases l with
    | nil => simp at hlen
    | cons a l' => rfl
  · intro i hi
    have hilt : i < bbox.corners.length := by omega
    have hci : bbox.corners[i]? = some bbox.corners[i] :=
      List.getElem?_eq_getElem hilt
    obtain ⟨rd, hrd, hw⟩ := hptw i bbox.corners[i] hci
    refine ⟨bbox.corners[i], rd.1, rd.2, hci, ?_, ?_, ?_⟩
    · rw [List.getElem?_map, hrd]
      rfl
    · rw [List.getElem?_map, hrd]
      rfl
    · rw [hw]

/-- C6 witness: on a concrete 4-corner box and the identity-like WCS the
projection succeeds. -/
theorem C6_bboxToRaDec_corners_witness :
    (bboxToRaDec ⟨[⟨0, 0⟩, ⟨1, 0⟩, ⟨1, 1⟩, ⟨0, 1⟩]⟩ fun p => some (p.px, p.py)).isSome
      = true := by
  obtain ⟨ra, dec, h, -⟩ :=
    C6_bboxToRaDec_corners ⟨[⟨0, 0⟩, ⟨1, 0⟩, ⟨1, 1⟩, ⟨0, 1⟩]⟩
      (fun p => some (p.px, p.py)) (by decide) (by decide)
  rw [h]
  rfl

/-- C10: for every caret-separated list of integer ids given on the command
line, `splitId`'s action produces a list containing each distinct id exactly
once (duplicates collapsed, nothing else added), and because the list is built
from a set the original input order is not guaranteed: for input ids `[2, 1]`
the order-reversing list `[1, 2]` is among the admissible outcomes. -/
theorem C10_splitId_distinct :
    (∀ idList l, splitIdOutcome idList l →
      (∀ x ∈ idList, l.count x = 1) ∧ ∀ x : ℤ, x ∉ idList → l.count x = 0) ∧
    (splitIdOutcome [2, 1] [1, 2] ∧ [1, 2] ≠ [2, 1]) := by
  constructor
  · rintro idList l ⟨hnd, hfs⟩
    have hmem : ∀ x : ℤ, x ∈ l ↔ x ∈ idList := by
      intro x
      rw [← List.mem_toFinset, hfs, List.mem_toFinset]
    constructor
    · intro x hx
      exact List.count_eq_one_of_mem hnd ((hmem x).mpr hx)
    · intro x hx
      exact List.count_eq_zero_of_not_mem fun h => hx ((hmem x).mp h)
  · exact ⟨by decide, by decide⟩

/-- C10 witness: `[1, 2]` is an admissible outcome for input ids `[2, 1]` and
counts the id `2` exactly once. -/
theorem C10_splitId_distinct_witness : ([1, 2] : List ℤ).count 2 = 1 :=
  (C10_splitId_distinct.1 [2, 1] [1, 2] (by decide)).1 2 (by decide)

/-! Characterization of the aggregation loop, one field at a time. -/

theorem processCcd_fields {α : Type} (env : Env α) (k : String)
    (ccds : Option (List ℤ)) (i_v : ℕ) (v : ℤ) (ccd : Sensor) (st : AggState) :
    (processCcd env k ccds i_v v ccd st).ras =
      st.ras ++ (if ccdSelected ccds ccd.serial ccd.stype then pairRas env k v ccd
                 else []) ∧
    (processCcd env k ccds i_v v ccd st).decs =
      st.decs ++ (if ccdSelected ccds ccd.serial ccd.stype then pairDecs env k v ccd
                  else []) ∧
    (processCcd env k ccds i_v v ccd st).fetchLog =
      st.fetchLog ++ (if ccdSelected ccds ccd.serial ccd.stype then [(v, ccd.serial)]
                      else []) ∧
    (processCcd env k ccds i_v v ccd st).printed = st.printed := by
  rw [processCcd, pairRas, pairDecs, projectPair]
  cases hsel : ccdSelected ccds ccd.serial ccd.stype
  · simp
  · simp only [if_pos]
    cases hmd : env.fetchMd k v ccd.serial with
    | none => simp [hmd]
    | some md =>
      cases hw : env.makeWcs md with
      | none => simp [hmd, hw]
      | some wcs =>
        cases hb : bboxToRaDec ccd.bbox wcs with
        | none => simp [hmd, hw, hb]
        | some rd =>
          simp only [hmd, hw, hb]
          refine ⟨?_, ?_, ?_, ?_⟩ <;> split <;> simp [hw, hb]

theorem foldl_processCcd_fields {α : Type} (env : Env α) (k : String)
    (ccds : Option (List ℤ)) (i_v : ℕ) (v : ℤ) :
    ∀ (sensors : List Sensor) (st : AggState),
      ((sensors.foldl (fun s c => processCcd env k ccds i_v v c s) st).ras =
        st.ras ++ sensors.flatMap fun c =>
          if ccdSelected ccds c.serial c.stype then pairRas env k v c else []) ∧
      ((sensors.foldl (fun s c => processCcd env k ccds i_v v c s) st).decs =
        st.decs ++ sensors.flatMap fun c =>
          if ccdSelected ccds c.serial c.stype then pairDecs env k v c else []) ∧
      ((sensors.foldl (fun s c => processCcd env k ccds i_v v c s) st).fetchLog =
        st.fetchLog ++ sensors.flatMap fun c =>
          if ccdSelected ccds c.serial c.stype then [(v, c.serial)] else []) ∧
      (sensors.foldl (fun s c => processCcd env k ccds i_v v c s) st).printed =
        st.printed := by
  intro sensors
  induction sensors with
  | nil => intro st; simp
  | cons c cs ih =>
    intro st
    obtain ⟨h1, h2, h3, h4⟩ := ih (processCcd env k ccds i_v v c st)
    obtain ⟨p1, p2, p3, p4⟩ := processCcd_fields env k ccds i_v v c st
    simp only [List.foldl_cons] at *
    rw [h1, p1, h2, p2, h3, p3, h4, p4]
    simp [List.flatMap_cons, List.append_assoc]

theorem bind_ite_filter {β : Type} (p : Sensor → Bool) (g : Sensor → List β) :
    ∀ l : List Sensor,
      (l.flatMap fun c => if p c then g c else []) = (l.filter p).flatMap g := by
  intro l
  induction l with
  | nil => rfl
  | cons c cs ih =>
    rw [List.filter_cons]
    cases hp : p c <;> simp [hp, ih, List.flatMap_cons]

theorem bind_singleton_eq_map {β γ : Type} (f : β → γ) :
    ∀ l : List β, (l.flatMap fun x => [f x]) = l.map f := by
  intro l
  induction l with
  | nil => rfl
  | cons x xs ih => simp [ih, List.flatMap_cons]

theorem processVisit_fields {α : Type} (env : Env α) (k : String)
    (ccds : Option (List ℤ)) (i_v : ℕ) (v : ℤ) (st : AggState) :
    (processVisit env k ccds i_v v st).ras =
      st.ras ++ (selectedSensors env.camera ccds).flatMap (pairRas env k v) ∧
    (processVisit env k ccds i_v v st).decs =
      st.decs ++ (selectedSensors env.camera ccds).flatMap (pairDecs env k v) ∧
    (processVisit env k ccds i_v v st).fetchLog =
      st.fetchLog ++ (selectedSensors env.camera ccds).map (fun c => (v, c.serial)) ∧
    (processVisit env k ccds i_v v st).printed = st.printed ++ [(i_v, v)] := by
  obtain ⟨h1, h2, h3, h4⟩ := foldl_processCcd_fields env k ccds i_v v
    env.camera.sensors { st with printed := st.printed ++ [(i_v, v)] }
  rw [processVisit]
  rw [bind_ite_filter _ (pairRas env k v)] at h1
  rw [bind_ite_filter _ (pairDecs env k v)] at h2
  rw [bind_ite_filter _ (fun c => [(v, c.serial)]), bind_singleton_eq_map] at h3
  exact ⟨h1, h2, h3, h4⟩

theorem runVisits_fields {α : Type} (env : Env α) (k : String)
    (ccds : Option (List ℤ)) :
    ∀ (visits : List ℤ) (i : ℕ) (st : AggState),
      (runVisits env k ccds i visits st).ras =
        st.ras ++ visits.flatMap
          (fun v => (selectedSensors env.camera ccds).flatMap (pairRas env k v)) ∧
      (runVisits env k ccds i visits st).decs =
        st.decs ++ visits.flatMap
          (fun v => (selectedSensors env.camera ccds).flatMap (pairDecs env k v)) ∧
      (runVisits env k ccds i visits st).fetchLog =
        st.fetchLog ++ visits.flatMap
          (fun v => (selectedSensors env.camera ccds).map fun c => (v, c.serial)) ∧
      (runVisits env k ccds i visits st).printed = st.printed ++ List.enumFrom i visits := by
  intro visits
  induction visits with
  | nil =>
    intro i st
    simp [runVisits, List.enumFrom]
  | cons v vs ih =>
    intro i st
    obtain ⟨h1, h2, h3, h4⟩ := ih (i + 1) (processVisit env k ccds i v st)
    obtain ⟨p1, p2, p3, p4⟩ := processVisit_fields env k ccds i v st
    rw [runVisits, h1, p1, h2, p2, h3, p3, h4, p4]
    simp [List.flatMap_cons, List.append_assoc, List.enumFrom]

/-- C1 counterexample environment: metadata fetch, WCS construction and
projection all succeed for the single science sensor, but the draw call
(`pyplot.fill`) raises. -/
def envC1 : Env Unit :=
  { camera := ⟨[⟨7, SensorType.science, ⟨[⟨0, 0⟩, ⟨1, 0⟩, ⟨1, 1⟩, ⟨0, 1⟩]⟩⟩]⟩,
    fetchMd := fun _ _ _ => some (),
    makeWcs := fun _ => some fun p => some (p.px, p.py),
    fillOk := fun _ => false,
    textOk := fun _ => true,
    getSkyMap := fun _ => none }

/-- C1 counterexample: the single (visit 0, sensor 7) pair raises at the draw
call — no fill is ever issued, so the pair is not successfully processed — yet
its four corner RA values sit in the accumulator, because the code appends to
`ras`/`decs` before calling `pyplot.fill`.  This refutes the claim that the
final accumulators contain exactly the contributions of the successfully
processed pairs and nothing else. -/
theorem C1_draw_failure_counterexample :
    (runAggregation envC1 "ccd" none [0]).fills = [] ∧
    (runAggregation envC1 "ccd" none [0]).ras = [0, 1, 1, 0] ∧
    (runAggregation envC1 "ccd" none [0]).decs = [0, 0, 1, 1] := by
  decide

/-- C1 (amended): if processing one (exposure, sensor) pair raises at any of
the fallible steps, that pair is skipped silently — the printed output is the
per-visit enumeration only, independent of any failure — with no abort and no
retry, and every remaining pair is still processed: the fetch log is exactly
one attempt per selected (visit, sensor) pair.  The final RA/Dec accumulators
contain exactly the contributions of the pairs whose metadata fetch, WCS
construction and projection succeeded — including a pair whose subsequent draw
call fails, since the accumulators are extended before the draw is issued. -/
theorem C1_failure_tolerance {α : Type} (env : Env α) (ccdKey : String)
    (ccds : Option (List ℤ)) (visits : List ℤ) :
    (runAggregation env ccdKey ccds visits).ras =
      visits.flatMap
        (fun v => (selectedSensors env.camera ccds).flatMap (pairRas env ccdKey v)) ∧
    (runAggregation env ccdKey ccds visits).decs =
      visits.flatMap
        (fun v => (selectedSensors env.camera ccds).flatMap (pairDecs env ccdKey v)) ∧
    (runAggregation env ccdKey ccds visits).fetchLog =
      visits.flatMap
        (fun v => (selectedSensors env.camera ccds).map fun c => (v, c.serial)) ∧
    (runAggregation env ccdKey ccds visits).printed = List.enumFrom 0 visits := by
  have h := runVisits_fields env ccdKey ccds visits 0 AggState.empty
  simpa [runAggregation, AggState.empty] using h

/-- Auxiliary: the code's filter agrees with the spec's wording of the filter. -/
theorem ccdSelected_eq_specShouldFetch (ccds : Option (List ℤ)) (s : Sensor) :
    ccdSelected ccds s.serial s.stype = specShouldFetch ccds s := by
  cases ccds <;> simp [ccdSelected, specShouldFetch, Bool.and_comm]

/-- C5 concrete camera: science sensors 1, 2, 3 and one non-science sensor. -/
def envC5 : Env Unit :=
  { camera := ⟨[⟨1, SensorType.science, ⟨[]⟩⟩, ⟨2, SensorType.science, ⟨[]⟩⟩,
               ⟨3, SensorType.science, ⟨[]⟩⟩, ⟨4, SensorType.nonScience, ⟨[]⟩⟩]⟩,
    fetchMd := fun _ _ _ => none,
    makeWcs := fun _ => none,
    fillOk := fun _ => true,
    textOk := fun _ => true,
    getSkyMap := fun _ => none }

/-- C5: for every exposure and every sensor, a metadata fetch is attempted iff
the sensor's type is science and either no sensor-id filter was given or the
sensor's id is in the filter; for the camera with science sensors 1, 2, 3, one
non-science sensor, and filter `{1, 3}`, exactly the two fetches for ids 1 and
3 occur for the single exposure 100. -/
theorem C5_fetch_filter {α : Type} (env : Env α) (ccdKey : String)
    (ccds : Option (List ℤ)) (visits : List ℤ) :
    ((runAggregation env ccdKey ccds visits).fetchLog =
      visits.flatMap fun v =>
        (env.camera.sensors.filter (specShouldFetch ccds)).map fun s =>
          (v, s.serial)) ∧
    (runAggregation envC5 "ccd" (some [1, 3]) [100]).fetchLog =
      [(100, 1), (100, 3)] := by
  constructor
  · have h := (runVisits_fields env ccdKey ccds visits 0 AggState.empty).2.2.1
    have hsel : selectedSensors env.camera ccds =
        env.camera.sensors.filter (specShouldFetch ccds) := by
      rw [selectedSensors]
      congr 1
      funext s
      exact ccdSelected_eq_specShouldFetch ccds s
    rw [hsel] at h
    simpa [runAggregation, AggState.empty] using h
  · decide

/-! Congruence lemmas: which environment fields each loop actually reads. -/

theorem processCcd_congr {α : Type} (e e2 : Env α) (hf : e.fetchMd = e2.fetchMd)
    (hw : e.makeWcs = e2.makeWcs) (hd : e.fillOk = e2.fillOk) :
    processCcd e = processCcd e2 := by
  funext k ccds i v ccd st
  simp only [processCcd, hf, hw, hd]

theorem processVisit_congr {α : Type} (e e2 : Env α) (hc : e.camera = e2.camera)
    (hf : e.fetchMd = e2.fetchMd) (hw : e.makeWcs = e2.makeWcs)
    (hd : e.fillOk = e2.fillOk) : processVisit e = processVisit e2 := by
  funext k ccds i v st
  simp only [processVisit, hc, processCcd_congr e e2 hf hw hd]

theorem runVisits_congr {α : Type} (e e2 : Env α) (hc : e.camera = e2.camera)
    (hf : e.fetchMd = e2.fetchMd) (hw : e.makeWcs = e2.makeWcs)
    (hd : e.fillOk = e2.fillOk) :
    ∀ (k : String) (ccds : Option (List ℤ)) (visits : List ℤ) (i : ℕ) (st : AggState),
      runVisits e k ccds i visits st = runVisits e2 k ccds i visits st := by
  intro k ccds visits
  induction visits with
  | nil => intro i st; rfl
  | cons v vs ih =>
    intro i st
    rw [runVisits, runVisits, processVisit_congr e e2 hc hf hw hd, ih]

theorem overlayPatch_congr {α : Type} (e e2 : Env α) (hd : e.fillOk = e2.fillOk)
    (ht : e.textOk = e2.textOk) : overlayPatch e = overlayPatch e2 := by
  funext xlim ylim wcs patch acc
  simp only [overlayPatch, hd, ht]

theorem runOverlay_congr {α : Type} (e e2 : Env α) (hd : e.fillOk = e2.fillOk)
    (ht : e.textOk = e2.textOk) : runOverlay e = runOverlay e2 := by
  funext xlim ylim sm
  simp only [runOverlay, overlayTract, overlayPatch_congr e e2 hd ht]

/-- C2: whenever the patch-overlay flag is enabled, the tiling grid is
requested with tract key 0 for every value of the user-supplied tract
argument: the outcome of `main` with `showPatch = true` is unchanged both when
the tract argument changes arbitrarily and when `getSkyMap` is replaced by any
function that agrees with it at key 0 only. -/
theorem C2_overlay_requests_tract_zero {α : Type} (env : Env α)
    (g2 : ℤ → Option SkyMap) (t1 t2 : ℤ) (visits : List ℤ)
    (ccds : Option (List ℤ)) (ccdKey : String) (saveFile : Option String)
    (h : g2 0 = env.getSkyMap 0) :
    main { env with getSkyMap := g2 } t1 visits ccds ccdKey true saveFile =
    main env t2 visits ccds ccdKey true saveFile := by
  have hagg : runAggregation { env with getSkyMap := g2 } ccdKey ccds visits =
      runAggregation env ccdKey ccds visits := by
    rw [runAggregation, runAggregation,
      runVisits_congr { env with getSkyMap := g2 } env rfl rfl rfl rfl]
  have hov : runOverlay { env with getSkyMap := g2 } = runOverlay (α := α) env :=
    runOverlay_congr _ _ rfl rfl
  simp only [main, hagg, hov, h]

/-- C2 witness environment: one skymap with no tracts, reachable at key 0. -/
def envC2 : Env Unit :=
  { camera := ⟨[⟨1, SensorType.science, ⟨[⟨0, 0⟩, ⟨1, 0⟩, ⟨1, 1⟩, ⟨0, 1⟩]⟩⟩]⟩,
    fetchMd := fun _ _ _ => some (),
    makeWcs := fun _ => some fun p => some (p.px, p.py),
    fillOk := fun _ => true,
    textOk := fun _ => true,
    getSkyMap := fun _ => some ⟨[]⟩ }

/-- C2 witness: replacing `getSkyMap` away from key 0 and changing the tract
argument from 5 to 7 leaves the outcome of `main` unchanged. -/
theorem C2_overlay_requests_tract_zero_witness :
    main { envC2 with getSkyMap := fun t => if t = 0 then some ⟨[]⟩ else none }
      5 [100] none "ccd" true none =
    main envC2 7 [100] none "ccd" true none :=
  C2_overlay_requests_tract_zero envC2
    (fun t => if t = 0 then some ⟨[]⟩ else none) 5 7 [100] none "ccd" none
    (by simp [envC2])

/-! The overlay's labelling behaviour. -/

theorem percent_isSome (v : List ℚ) (p : ℚ) (h : v ≠ []) :
    ∃ q, percent v p = some q := by
  cases v with
  | nil => exact absurd rfl h
  | cons x xs => exact ⟨_, rfl⟩

theorem bboxToRaDec_ne_nil {bbox : BBox} {wcs : Wcs} {rd : List ℚ × List ℚ}
    (h : bboxToRaDec bbox wcs = some rd) : rd.1 ≠ [] ∧ rd.2 ≠ [] := by
  rw [bboxToRaDec] at h
  cases hp : projectCorners wcs bbox.corners with
  | none =>
    rw [hp] at h
    simp at h
  | some cs =>
    rw [hp] at h
    cases cs with
    | nil => simp at h
    | cons a l =>
      have h2 : (List.map Prod.fst (a :: l), List.map Prod.snd (a :: l)) = rd := by
        simpa using h
      subst h2
      simp

theorem overlayPatch_texts {α : Type} (env : Env α) (xl yl : ℚ × ℚ) (wcs : Wcs)
    (p : Patch) (acc acc2 : OverlayOut)
    (h : overlayPatch env xl yl wcs p acc = some acc2) :
    acc2.texts = acc.texts ++ specLabels xl yl wcs p := by
  rw [overlayPatch] at h
  rw [specLabels]
  cases hb : bboxToRaDec p.innerBBox wcs with
  | none =>
    rw [hb] at h
    simp at h
  | some rd =>
    rw [hb] at h
    obtain ⟨hr1, hr2⟩ := bboxToRaDec_ne_nil hb
    obtain ⟨cra, hcra⟩ := percent_isSome rd.1 (1/2) hr1
    obtain ⟨cdec, hcdec⟩ := percent_isSome rd.2 (1/2) hr2
    obtain ⟨y9, hy9⟩ := percent_isSome rd.2 (9/10) hr2
    simp only [Option.some_bind, hcra, hcdec, hy9]
    simp only [Option.some_bind, hcra, hcdec, hy9] at h
    split at h
    · split at h
      · split at h
        · split at h
          · obtain h := Option.some.inj h
            subst h
            rename_i hx hy htx
            rw [if_pos ⟨hx.1, hx.2, hy.1, hy.2⟩]
          · simp at h
        · rename_i hx hy
          obtain h := Option.some.inj h
          subst h
          rw [if_neg]
          · simp
          · intro hc
            exact hy ⟨hc.2.2.1, hc.2.2.2⟩
      · rename_i hx
        obtain h := Option.some.inj h
        subst h
        rw [if_neg]
        · simp
        · intro hc
          exact hx ⟨hc.1, hc.2.1⟩
    · simp at h

theorem foldlM_patches_texts {α : Type} (env : Env α) (xl yl : ℚ × ℚ) (wcs : Wcs) :
    ∀ (ps : List Patch) (acc acc2 : OverlayOut),
      ps.foldlM (fun a p => overlayPatch env xl yl wcs p a) acc = some acc2 →
      acc2.texts = acc.texts ++ ps.flatMap (specLabels xl yl wcs) := by
  intro ps
  induction ps with
  | nil =>
    intro acc acc2 h
    simp at h
    subst h
    simp
  | cons p ps ih =>
    intro acc acc2 h
    rw [List.foldlM_cons] at h
    cases hp : overlayPatch env xl yl wcs p acc with
    | none =>
      rw [hp] at h
      simp at h
    | some acc1 =>
      rw [hp] at h
      simp only [Option.bind_eq_bind, Option.some_bind] at h
      rw [ih acc1 acc2 h, overlayPatch_texts env xl yl wcs p acc acc1 hp]
      simp [List.flatMap_cons, List.append_assoc]

theorem foldlM_tracts_texts {α : Type} (env : Env α) (xl yl : ℚ × ℚ) :
    ∀ (ts : List Tract) (acc acc2 : OverlayOut),
      ts.foldlM (fun a t => overlayTract env xl yl t a) acc = some acc2 →
      acc2.texts = acc.texts ++
        ts.flatMap fun t => t.patches.flatMap (specLabels xl yl t.twcs) := by
  intro ts
  induction ts with
  | nil =>
    intro acc acc2 h
    simp at h
    subst h
    simp
  | cons t ts ih =>
    intro acc acc2 h
    rw [List.foldlM_cons] at h
    cases ht : overlayTract env xl yl t acc with
    | none =>
      rw [ht] at h
      simp at h
    | some acc1 =>
      rw [ht] at h
      simp only [Option.bind_eq_bind, Option.some_bind] at h
      rw [overlayTract] at ht
      rw [ih acc1 acc2 h, foldlM_patches_texts env xl yl t.twcs t.patches acc acc1 ht]
      simp [List.flatMap_cons, List.append_assoc]

/-- C8: whenever the overlay completes without an uncaught exception, its text
calls are, patch by patch in grid order, exactly those the spec prescribes: a
patch is labelled iff its centroid (the `p = 0.5` point between min and max of
its projected RA, and likewise of its Dec) lies strictly inside the computed
`xlim` and `ylim` intervals, and the label sits at
`(percent(ra, 0.5), percent(dec, 0.9))` with fontsize 6, center/top anchors. -/
theorem C8_overlay_patch_labels {α : Type} (env : Env α) (xlim ylim : ℚ × ℚ)
    (sm : SkyMap) (out : OverlayOut) (h : runOverlay env xlim ylim sm = some out) :
    out.texts =
      sm.tracts.flatMap fun t => t.patches.flatMap (specLabels xlim ylim t.twcs) := by
  have h2 := foldlM_tracts_texts env xlim ylim sm.tracts ⟨[], []⟩ out h
  simpa using h2

/-- C8 witness scenario: one tract with an identity-like WCS and one patch
whose centroid `(1, 1)` lies inside the view limits. -/
def smC8 : SkyMap := ⟨[⟨fun p => some (p.px, p.py), [⟨⟨[⟨0, 0⟩, ⟨2, 0⟩, ⟨2, 2⟩, ⟨0, 2⟩]⟩, (3, 4)⟩]⟩]⟩

/-- C8 witness environment: no plotting call raises. -/
def envC8 : Env Unit :=
  { camera := ⟨[]⟩, fetchMd := fun _ _ _ => none, makeWcs := fun _ => none,
    fillOk := fun _ => true, textOk := fun _ => true, getSkyMap := fun _ => some smC8 }

/-- C8 witness overlay output: the dashed outline and the one label. -/
def outC8 : OverlayOut :=
  ⟨[{ ra := [0, 2, 2, 0], dec := [0, 0, 2, 2], filled := false, alpha := none,
      color := none, edgecolor := some "k", lw := some 1, linestyle := some "dashed" }],
   [{ x := 1, y := 9/5, label := (3, 4), fontsize := 6, ha := "center", va := "top" }]⟩

/-- C8 witness expected labels, per the spec-side definition. -/
def specLabelsC8 : List TextCall :=
  smC8.tracts.flatMap fun t => t.patches.flatMap (specLabels (10, -10) (-10, 10) t.twcs)

/-- C8 witness: on the concrete scenario the overlay succeeds and its labels
agree with the spec-side label list. -/
theorem C8_overlay_patch_labels_witness : outC8.texts = specLabelsC8 :=
  C8_overlay_patch_labels envC8 (10, -10) (-10, 10) smC8 outC8 (by
    norm_num [runOverlay, overlayTract, overlayPatch, smC8, envC8, outC8,
      bboxToRaDec, projectCorners, percent, pymin, pymax])

end SkyMapViz
